import Mathlib

/-!
Verification of the retrieval confidence-gating and dual-index merge engine of
the `llamaindex-server` (app.py): a shallow embedding of its pure decision
logic — slug resolution, injection recording and reconstruction, retrieval
merging, the confidence gate and the answer synthesizer — together with
theorems settling the specified properties.

Strings are modelled as `List Char` where character-level substitution
matters (slug computation) and as `String` elsewhere.  Similarity scores
(floats in the source, used only through comparisons and one arithmetic
mean) are modelled as rationals.
-/

deriving instance DecidableEq for Except

namespace SlackAssistant

/-! ## Slug resolution (app.py, `normalize_version` / `get_slug`) -/

/-- The fixed multi-character marker substituted for a dot: `"-dot-"`. -/
def marker : List Char := ['-', 'd', 'o', 't', '-']

/-- `normalize_version(version)`: `version.replace(".", "-dot-")`, the
left-to-right single-character substitution, on the character list. -/
def normalize_version : List Char → List Char
  | [] => []
  | c :: rest =>
    if c = '.' then marker ++ normalize_version rest
    else c :: normalize_version rest

/-- The inverse substitution applied by `load_or_create_delta_index`
(app.py line 147): `version_slug.replace("-dot-", ".")`, the left-to-right
non-overlapping replacement of the marker by a dot. -/
def unnormalize : List Char → List Char
  | '-' :: 'd' :: 'o' :: 't' :: '-' :: rest => '.' :: unnormalize rest
  | c :: rest => c :: unnormalize rest
  | [] => []

/-- `get_slug(project, version)` (app.py lines 68-72): the version, if
non-empty, is normalized and appended to the project after a `-` separator;
an empty version returns the project unchanged. -/
def get_slug (project version : List Char) : List Char :=
  if version ≠ [] then project ++ '-' :: normalize_version version
  else project

/-- Whether `pat` occurs as a contiguous substring of `s`
(Python `pat in s`). -/
def hasSub (pat : List Char) : List Char → Bool
  | [] => pat.isEmpty
  | c :: rest => pat.isPrefixOf (c :: rest) || hasSub pat rest

/-- A version string on which the marker substitution is ambiguous: it
contains the marker `"-dot-"` itself or the sequence `"-dot."` (which the
substitution turns into a spurious earlier marker). -/
def badVersion (v : List Char) : Bool :=
  hasSub marker v || hasSub ['-', 'd', 'o', 't', '.'] v

/-- Python `slug.split("-", 1)` as used at app.py line 146: splits at the
first `-`; `none` models the `ValueError` raised by unpacking when the slug
contains no `-` at all. -/
def splitFirstDash : List Char → Option (List Char × List Char)
  | [] => none
  | c :: rest =>
    if c = '-' then some ([], rest)
    else
      match splitFirstDash rest with
      | none => none
      | some (a, b) => some (c :: a, b)

/-- The (project, version) pair `load_or_create_delta_index` reconstructs
from a slug (app.py lines 146-147): split at the first `-`, then reverse the
marker substitution on the version part. -/
def slug_to_project_version (slug : List Char) : Option (List Char × List Char) :=
  match splitFirstDash slug with
  | none => none
  | some (p, vs) => some (p, unnormalize vs)

/-! ## Data model for retrieval, answering and injection -/

/-- A retrieved candidate (`NodeWithScore`): the chunk's text plus its
optional similarity score (scores, floats in the source and used only
through comparisons and one arithmetic mean, are modelled as rationals). -/
structure Candidate where
  text : String
  score : Option ℚ
deriving DecidableEq

/-- Modelled from the spec: the similarity-cutoff filter is the external
`SimilarityPostprocessor` (app.py lines 188-189), whose code is not part of
this repository; per the spec it drops every candidate whose score is
present and strictly below the cutoff and retains candidates with absent
scores. -/
def similarityFilter (cutoff : ℚ) (nodes : List Candidate) : List Candidate :=
  nodes.filter fun n =>
    match n.score with
    | none => true
    | some s => if s < cutoff then false else true

/-- The retrieval merge (app.py lines 167-180): the base index's results
first, then — when a delta index exists — the delta index's results, by
plain list concatenation (`all_nodes.extend`), with no re-ranking and no
deduplication.  The two searches themselves are the external vector
indexes; their result lists are taken as inputs. -/
def retrieveMerge (baseNodes : List Candidate)
    (deltaNodes : Option (List Candidate)) : List Candidate :=
  match deltaNodes with
  | some delta => baseNodes ++ delta
  | none => baseNodes

/-- The confidence gate (app.py lines 187-208): apply the similarity
cutoff, abstain if fewer than `minHits` candidates survive, otherwise
abstain if the candidates with a defined score have a mean strictly below
`thresh`; both comparisons are strict `<`. -/
def gate (minHits : Nat) (cutoff thresh : ℚ) (all_nodes : List Candidate) :
    List Candidate × Bool :=
  let filtered_nodes := similarityFilter cutoff all_nodes
  if filtered_nodes.length < minHits then (filtered_nodes, false)
  else if filtered_nodes.isEmpty then (filtered_nodes, true)
  else
    let scores := filtered_nodes.filterMap Candidate.score
    if scores.isEmpty then (filtered_nodes, true)
    else if scores.sum / (scores.length : ℚ) < thresh then (filtered_nodes, false)
    else (filtered_nodes, true)

/-- `retrieve_with_confidence` (app.py lines 160-208): merge, then gate. -/
def retrieve_with_confidence (minHits : Nat) (cutoff thresh : ℚ)
    (baseNodes : List Candidate) (deltaNodes : Option (List Candidate)) :
    List Candidate × Bool :=
  gate minHits cutoff thresh (retrieveMerge baseNodes deltaNodes)

/-! ## Answer synthesis (app.py lines 331-355) -/

/-- The fixed abstention string. -/
def idkResponse : String := "I don't know."

/-- The grounding prompt's fixed instruction header (app.py lines 338-348),
up to and including the line `Context:`. -/
def promptHeader : String :=
"You are a helpful technical assistant with expertise in Kubernetes and cloud-native technologies.

Use the provided context as your PRIMARY source of information. When the user asks for examples or configurations:
1. Start with what's provided in the context
2. Use your knowledge to complete and enhance the example to make it fully functional
3. Ensure all parts of your example are consistent (matching labels, IPs, names, etc.)
4. Provide complete, working configurations that the user can directly use

If the context doesn't contain relevant information to answer the question at all, respond with: \"I don't know.\"

Context:
"

/-- The grounding prompt (app.py lines 335-353): the accepted candidates'
texts joined by double line breaks, embedded in the fixed template, with
the question appended. -/
def buildPrompt (message : String) (nodes : List Candidate) : String :=
  let context := String.intercalate "\n\n" (nodes.map Candidate.text)
  promptHeader ++ context ++ "\n\nQuestion: " ++ message ++ "\n\nAnswer:"

/-- The answer synthesizer (app.py lines 331-355): on abstention return
the fixed string without calling the generator; otherwise call the
generation oracle `gen` once on the grounding prompt.  The second
component counts the calls made to `gen`. -/
def synthesize (gen : String → String) (message : String)
    (nodes : List Candidate) (should_answer : Bool) : String × Nat :=
  if !should_answer then (idkResponse, 0)
  else (gen (buildPrompt message nodes), 1)

/-! ## The answer endpoint's state handling (app.py lines 303-364) -/

/-- A thread message: role (`"user"` or `"assistant"`) and content. -/
structure Message where
  role : String
  content : String
deriving DecidableEq

/-- The answer endpoint's response shape. -/
inductive AnswerResp where
  | ok (textResponse : String)
  | missingFields
  | notFound (project version : String)
deriving DecidableEq

/-- Python truthiness of an optional request field (`data.get(...)` then
`all([...])`): absent or empty-string fields fail validation. -/
def truthy : Option String → Bool
  | none => false
  | some s => !(s == "")

/-- Update-or-append on a string-keyed association list (dict assignment /
overwriting a thread file). -/
def setEntry {α : Type} (k : String) (val : α) :
    List (String × α) → List (String × α)
  | [] => [(k, val)]
  | (k2, v2) :: rest =>
    if k2 = k then (k, val) :: rest else (k2, v2) :: setEntry k val rest

/-- `get_slug` on `String`s. -/
def getSlugS (project version : String) : String :=
  String.mk (get_slug project.toList version.toList)

/-- The server state the answer endpoint touches: which slugs have a
loaded base (resp. delta) index, and the thread histories on disk and in
the in-memory cache. -/
structure AnswerState where
  base_slugs : List String
  delta_slugs : List String
  threadsDisk : List (String × List Message)
  threadsCache : List (String × List Message)
deriving DecidableEq

/-- `load_thread_memory` (app.py lines 75-81): the on-disk history, or
`[]` when no file exists. -/
def load_thread_memory (st : AnswerState) (thread_slug : String) : List Message :=
  (st.threadsDisk.lookup thread_slug).getD []

/-- The `/v1/answer` handler (app.py lines 303-364).  The two vector
searches and the generator are oracles; the retrieval results depend only
on the query string.  Returns the response and the new server state. -/
def answer (baseSearch deltaSearch : String → List Candidate)
    (gen : String → String) (minHits : Nat) (cutoff thresh : ℚ)
    (project version thread_slug message : Option String)
    (st : AnswerState) : AnswerResp × AnswerState :=
  if !(truthy project && truthy version && truthy thread_slug && truthy message) then
    (.missingFields, st)
  else
    let p := project.getD ""
    let v := version.getD ""
    let ts := thread_slug.getD ""
    let msg := message.getD ""
    let slug := getSlugS p v
    if st.base_slugs.contains slug then
      let deltaNodes :=
        if st.delta_slugs.contains slug then some (deltaSearch msg) else none
      let res := retrieve_with_confidence minHits cutoff thresh (baseSearch msg) deltaNodes
      let response := (synthesize gen msg res.1 res.2).1
      let hist := load_thread_memory st ts ++ [⟨"user", msg⟩, ⟨"assistant", response⟩]
      (.ok response,
        { st with
          threadsDisk := setEntry ts hist st.threadsDisk,
          threadsCache := setEntry ts hist st.threadsCache })
    else (.notFound p v, st)

/-! ## Injection (app.py lines 93-109 and 418-461) -/

/-- An injection record as written to the JSONL log (app.py lines 101-106). -/
structure InjectRecord where
  id : String
  timestamp : String
  text : String
  metadata : List (String × String)
deriving DecidableEq

/-- A document (`Document`): text, metadata and an optional identifier. -/
structure Doc where
  text : String
  metadata : List (String × String)
  doc_id : Option String
deriving DecidableEq

/-- A storage failure while appending to the injection log. -/
inductive StorageError where
  | writeFailure
deriving DecidableEq

/-- The injection-path state: the flattened injection log (each entry
keyed by project and normalized version, in append order) and the delta
index registry with each index's documents. -/
structure InjectState where
  injectLog : List (String × String × InjectRecord)
  delta_indexes : List (String × List Doc)
deriving DecidableEq

/-- `append_to_jsonl` (app.py lines 93-109): appends one record — with a
freshly generated id `recId` and timestamp `now` — to the log for
(project, normalized version).  `writeOk` is the storage oracle: when the
underlying write fails the error propagates and nothing is appended. -/
def append_to_jsonl (writeOk : Bool) (recId now : String)
    (project version text : String) (metadata : List (String × String))
    (st : InjectState) : Except StorageError InjectState :=
  if writeOk then
    .ok { st with injectLog :=
      st.injectLog ++ [(project, String.mk (normalize_version version.toList),
        ⟨recId, now, text, metadata⟩)] }
  else .error .writeFailure

/-- The side-effecting steps of the injection path, in execution order. -/
inductive InjectEvent where
  | logAppend (recId : String)
  | indexInsert (docId : String)
  | indexCreate (docId : String)
  | persistDelta (slug : String)
deriving DecidableEq

/-- Whether an injection event mutates the delta index. -/
def isIndexMutation : InjectEvent → Bool
  | .indexInsert _ => true
  | .indexCreate _ => true
  | _ => false

/-- The `/v1/inject` handler (app.py lines 418-461): append the record to
the JSONL log, then build a `Document` whose `doc_id` is a second freshly
generated identifier `docId` (app.py line 443), then insert it into the
existing delta index for the slug or create a new one, and persist.
`recId` and `docId` are the two `uuid.uuid4()` draws in call order.
Returns the outcome, the new state, and the trace of performed effects. -/
def inject (writeOk : Bool) (recId docId now : String)
    (project version textContent : String) (metadata : List (String × String))
    (st : InjectState) :
    Except StorageError Unit × InjectState × List InjectEvent :=
  let slug := getSlugS project version
  match append_to_jsonl writeOk recId now project version textContent metadata st with
  | .error e => (.error e, st, [])
  | .ok st1 =>
    let doc : Doc := ⟨textContent, metadata, some docId⟩
    match st1.delta_indexes.lookup slug with
    | some docs =>
      (.ok (),
        { st1 with delta_indexes := setEntry slug (docs ++ [doc]) st1.delta_indexes },
        [.logAppend recId, .indexInsert docId, .persistDelta slug])
    | none =>
      (.ok (),
        { st1 with delta_indexes := st1.delta_indexes ++ [(slug, [doc])] },
        [.logAppend recId, .indexCreate docId, .persistDelta slug])

/-- Python `line.strip()` falsiness: a line is blank when every character
is whitespace. -/
def isBlankLine (line : String) : Bool :=
  line.toList.all Char.isWhitespace

/-- `load_injected_documents` (app.py lines 112-130): rebuild the delta
corpus from the log lines.  Blank lines are skipped; each remaining line
is parsed (`json.loads`, the oracle `parse`) and yields one document whose
`doc_id` is the record's id.  A parse failure propagates as the raised
exception does in the source: there is no handler around `json.loads`. -/
def load_injected_documents (parse : String → Except String InjectRecord) :
    List String → Except String (List Doc)
  | [] => .ok []
  | line :: rest =>
    if isBlankLine line then load_injected_documents parse rest
    else
      match parse line with
      | .error e => .error e
      | .ok record =>
        match load_injected_documents parse rest with
        | .error e => .error e
        | .ok docs => .ok (⟨record.text, record.metadata, some record.id⟩ :: docs)

/-- A concrete parse oracle for counterexamples: fails exactly on the
line `"bad"`, parses any other line `l` to a record with id and text `l`. -/
def parseEx : String → Except String InjectRecord := fun line =>
  if line = "bad" then .error "parse failure" else .ok ⟨line, "t0", line, []⟩

/-! ### Lemmas about the marker substitution -/

theorem normalize_cons_dot (v : List Char) :
    normalize_version ('.' :: v) = marker ++ normalize_version v := by
  simp [normalize_version]

theorem normalize_cons_ne {c : Char} (v : List Char) (hc : c ≠ '.') :
    normalize_version (c :: v) = c :: normalize_version v := by
  simp [normalize_version, hc]

theorem unnormalize_marker_append (x : List Char) :
    unnormalize (marker ++ x) = '.' :: unnormalize x := rfl

theorem hasSub_cons_false {pat : List Char} {c : Char} {v : List Char}
    (h : hasSub pat (c :: v) = false) : hasSub pat v = false := by
  simp only [hasSub, Bool.or_eq_false_iff] at h
  exact h.2

theorem badVersion_cons_false {c : Char} {v : List Char}
    (h : badVersion (c :: v) = false) : badVersion v = false := by
  simp only [badVersion, Bool.or_eq_false_iff] at h ⊢
  exact ⟨hasSub_cons_false h.1, hasSub_cons_false h.2⟩

theorem unnormalize_cons_not_marker {c : Char} {l : List Char}
    (h : marker.isPrefixOf (c :: l) = false) :
    unnormalize (c :: l) = c :: unnormalize l := by
  rw [unnormalize.eq_def]
  split
  · rename_i rest heq
    rw [show c :: l = '-' :: 'd' :: 'o' :: 't' :: '-' :: rest from heq] at h
    simp [marker, List.isPrefixOf] at h
  · rename_i heq
    injection heq with e1 e2
    rw [← e1, ← e2]
  · rename_i heq
    exact absurd heq (by simp)

/-- Head-pattern analysis: if neither `"-"` nor `"."` heads `v`, the
normalization of `v` is not headed by `"-"`. -/
theorem norm_prefix_dash {v : List Char}
    (h1 : ['-'].isPrefixOf v = false) (h2 : ['.'].isPrefixOf v = false) :
    ['-'].isPrefixOf (normalize_version v) = false := by
  match v with
  | [] => simp [normalize_version, List.isPrefixOf]
  | a :: v1 =>
    have ha2 : a ≠ '.' := by
      intro e; subst e; simp [List.isPrefixOf] at h2
    have ha1 : a ≠ '-' := by
      intro e; subst e; simp [List.isPrefixOf] at h1
    rw [normalize_cons_ne v1 ha2]
    have hbeq : ('-' == a) = false := beq_eq_false_iff_ne.mpr (Ne.symm ha1)
    simp [List.isPrefixOf, hbeq]

theorem norm_prefix_tdash {v : List Char}
    (h1 : ['t', '-'].isPrefixOf v = false) (h2 : ['t', '.'].isPrefixOf v = false) :
    ['t', '-'].isPrefixOf (normalize_version v) = false := by
  match v with
  | [] => simp [normalize_version, List.isPrefixOf]
  | a :: v1 =>
    by_cases ha : a = '.'
    · subst ha
      rw [normalize_cons_dot]
      simp [marker, List.isPrefixOf]
    · rw [normalize_cons_ne v1 ha]
      by_cases hat : a = 't'
      · subst hat
        simp only [List.isPrefixOf, beq_self_eq_true, Bool.true_and] at h1 h2 ⊢
        exact norm_prefix_dash h1 h2
      · have hbeq : ('t' == a) = false := beq_eq_false_iff_ne.mpr (Ne.symm hat)
        simp [List.isPrefixOf, hbeq]

theorem norm_prefix_otdash {v : List Char}
    (h1 : ['o', 't', '-'].isPrefixOf v = false)
    (h2 : ['o', 't', '.'].isPrefixOf v = false) :
    ['o', 't', '-'].isPrefixOf (normalize_version v) = false := by
  match v with
  | [] => simp [normalize_version, List.isPrefixOf]
  | a :: v1 =>
    by_cases ha : a = '.'
    · subst ha
      rw [normalize_cons_dot]
      simp [marker, List.isPrefixOf]
    · rw [normalize_cons_ne v1 ha]
      by_cases hao : a = 'o'
      · subst hao
        simp only [List.isPrefixOf, beq_self_eq_true, Bool.true_and] at h1 h2 ⊢
        exact norm_prefix_tdash h1 h2
      · have hbeq : ('o' == a) = false := beq_eq_false_iff_ne.mpr (Ne.symm hao)
        simp [List.isPrefixOf, hbeq]

theorem norm_prefix_dotdash {v : List Char}
    (h1 : ['d', 'o', 't', '-'].isPrefixOf v = false)
    (h2 : ['d', 'o', 't', '.'].isPrefixOf v = false) :
    ['d', 'o', 't', '-'].isPrefixOf (normalize_version v) = false := by
  match v with
  | [] => simp [normalize_version, List.isPrefixOf]
  | a :: v1 =>
    by_cases ha : a = '.'
    · subst ha
      rw [normalize_cons_dot]
      simp [marker, List.isPrefixOf]
    · rw [normalize_cons_ne v1 ha]
      by_cases had : a = 'd'
      · subst had
        simp only [List.isPrefixOf, beq_self_eq_true, Bool.true_and] at h1 h2 ⊢
        exact norm_prefix_otdash h1 h2
      · have hbeq : ('d' == a) = false := beq_eq_false_iff_ne.mpr (Ne.symm had)
        simp [List.isPrefixOf, hbeq]

/-- The round trip of the marker substitution: reversing the substitution
recovers any version that contains neither `"-dot-"` nor `"-dot."`. -/
theorem unnormalize_normalize {v : List Char} (h : badVersion v = false) :
    unnormalize (normalize_version v) = v := by
  induction v with
  | nil => rfl
  | cons c v1 ih =>
    have hb1 : badVersion v1 = false := badVersion_cons_false h
    by_cases hc : c = '.'
    · subst hc
      rw [normalize_cons_dot, unnormalize_marker_append, ih hb1]
    · rw [normalize_cons_ne v1 hc]
      have hnp : marker.isPrefixOf (c :: normalize_version v1) = false := by
        by_cases hcd : c = '-'
        · subst hcd
          simp only [badVersion, Bool.or_eq_false_iff, hasSub,
            Bool.or_eq_false_iff] at h
          have hm1 : marker.isPrefixOf ('-' :: v1) = false := h.1.1
          have hm2 : (['-', 'd', 'o', 't', '.'] : List Char).isPrefixOf ('-' :: v1)
              = false := h.2.1
          simp only [marker, List.isPrefixOf, beq_self_eq_true,
            Bool.true_and] at hm1 hm2 ⊢
          exact norm_prefix_dotdash hm1 hm2
        · simp [marker, List.isPrefixOf, Ne.symm hcd]
      rw [unnormalize_cons_not_marker hnp, ih hb1]

theorem splitFirstDash_append {p : List Char} (x : List Char)
    (hp : '-' ∉ p) : splitFirstDash (p ++ '-' :: x) = some (p, x) := by
  induction p with
  | nil => simp [splitFirstDash]
  | cons c p1 ih =>
    have hc : c ≠ '-' := fun hc => hp (by simp [hc])
    have hp1 : '-' ∉ p1 := fun hm => hp (List.mem_cons_of_mem _ hm)
    simp [splitFirstDash, hc, ih hp1]

/-! ## Claim theorems -/

/-- C1: for every `minHits > 0` and every candidate list, if fewer than
`minHits` candidates survive the similarity cutoff, the confidence gate
returns `shouldAnswer = false` together with the filtered candidates,
regardless of how high the surviving candidates' scores are. -/
theorem gate_below_min_hits_abstains (minHits : Nat) (cutoff thresh : ℚ)
    (cands : List Candidate) (hpos : 0 < minHits)
    (hfew : (similarityFilter cutoff cands).length < minHits) :
    gate minHits cutoff thresh cands = (similarityFilter cutoff cands, false) := by
  simp only [gate]
  rw [if_pos hfew]

/-- Witness for C1 at a concrete input: one surviving candidate with a very
high score still abstains under `minHits = 2`. -/
theorem gate_below_min_hits_abstains_witness :
    gate 2 0 0 [⟨"A", some 9⟩] = (similarityFilter 0 [⟨"A", some 9⟩], false) :=
  gate_below_min_hits_abstains 2 0 0 [⟨"A", some 9⟩] (by decide)
    (by simp [similarityFilter])

/-- C2: when every defined score is at least the cutoff, the mean of the
defined scores (when any exist) is at least the threshold, and the
candidate count is at least `minHits`, the gate answers and the accepted
list is the input unchanged; both comparisons being strict `<`, a score or
mean exactly at its threshold is accepted. -/
theorem gate_accepts_at_thresholds (minHits : Nat) (cutoff thresh : ℚ)
    (cands : List Candidate)
    (hscore : ∀ c ∈ cands, ∀ s : ℚ, c.score = some s → cutoff ≤ s)
    (hmean : cands.filterMap Candidate.score ≠ [] →
      thresh ≤ (cands.filterMap Candidate.score).sum /
        ((cands.filterMap Candidate.score).length : ℚ))
    (hcount : minHits ≤ cands.length) :
    gate minHits cutoff thresh cands = (cands, true) := by
  have hfilter : similarityFilter cutoff cands = cands := by
    apply List.filter_eq_self.mpr
    intro c hc
    cases hsc : c.score with
    | none => simp [hsc]
    | some s =>
      have hle := hscore c hc s hsc
      simp [hsc, not_lt.mpr hle]
  simp only [gate, hfilter]
  rw [if_neg (not_lt.mpr hcount)]
  by_cases hemp : cands.isEmpty
  · rw [if_pos hemp]
  · rw [if_neg hemp]
    by_cases hsemp : (cands.filterMap Candidate.score).isEmpty
    · rw [if_pos hsemp]
    · have hne : cands.filterMap Candidate.score ≠ [] := by
        simpa [List.isEmpty_iff] using hsemp
      rw [if_neg hsemp, if_neg (not_lt.mpr (hmean hne))]

/-- Witness for C2 at a concrete input sitting exactly at both thresholds:
score = cutoff = 1 and mean = threshold = 1 are accepted. -/
theorem gate_accepts_at_thresholds_witness :
    gate 1 1 1 [⟨"A", some 1⟩] = ([⟨"A", some 1⟩], true) :=
  gate_accepts_at_thresholds 1 1 1 [⟨"A", some 1⟩]
    (by
      intro c hc s hs
      rw [List.mem_singleton] at hc
      subst hc
      simp only [Candidate.score] at hs
      injection hs with h
      rw [← h])
    (by intro _; simp [List.filterMap, Candidate.score])
    (by simp)

/-- C3: when `shouldAnswer` is false the synthesizer returns exactly the
string "I don't know." and performs zero calls to the generation
service, for every question, accepted candidate list and generator. -/
theorem synthesize_abstains_without_generation
    (gen : String → String) (message : String) (nodes : List Candidate) :
    synthesize gen message nodes false = ("I don't know.", 0) := rfl

/-- C4: the retrieval merger concatenates the base results and (when a
delta index exists) the delta results, base first, with no re-ranking and
no deduplication: multiplicities add, so a chunk present in both lists
appears twice, the merged length is at most 2k when each list has length
at most k, and without a delta index the result is the base list alone. -/
theorem retrieveMerge_concat_no_dedup (baseNodes delta : List Candidate)
    (k : Nat) (hb : baseNodes.length ≤ k) (hd : delta.length ≤ k) :
    retrieveMerge baseNodes (some delta) = baseNodes ++ delta ∧
    (retrieveMerge baseNodes (some delta)).length ≤ 2 * k ∧
    (∀ c, (retrieveMerge baseNodes (some delta)).count c =
      baseNodes.count c + delta.count c) ∧
    (∀ c, c ∈ baseNodes → c ∈ delta →
      2 ≤ (retrieveMerge baseNodes (some delta)).count c) ∧
    retrieveMerge baseNodes none = baseNodes := by
  refine ⟨rfl, ?_, ?_, ?_, rfl⟩
  · simp only [retrieveMerge, List.length_append]
    omega
  · intro c
    simp [retrieveMerge, List.count_append]
  · intro c hcb hcd
    have h1 : 0 < baseNodes.count c := List.count_pos_iff.mpr hcb
    have h2 : 0 < delta.count c := List.count_pos_iff.mpr hcd
    simp only [retrieveMerge, List.count_append]
    omega

/-- Witness for C4: both lists hold the same single candidate, which
appears twice in the merge. -/
theorem retrieveMerge_concat_no_dedup_witness :
    retrieveMerge [⟨"A", some 1⟩] (some [⟨"A", some 1⟩]) =
      [⟨"A", some 1⟩] ++ [⟨"A", some 1⟩] ∧
    (retrieveMerge [⟨"A", some 1⟩] (some [⟨"A", some 1⟩])).length ≤ 2 * 1 ∧
    (∀ c, (retrieveMerge [⟨"A", some 1⟩] (some [⟨"A", some 1⟩])).count c =
      [⟨"A", some 1⟩].count c + [⟨"A", some 1⟩].count c) ∧
    (∀ c, c ∈ [⟨"A", some 1⟩] → c ∈ [(⟨"A", some 1⟩ : Candidate)] →
      2 ≤ (retrieveMerge [⟨"A", some 1⟩] (some [⟨"A", some 1⟩])).count c) ∧
    retrieveMerge [⟨"A", some 1⟩] none = [⟨"A", some 1⟩] :=
  retrieveMerge_concat_no_dedup [⟨"A", some 1⟩] [⟨"A", some 1⟩] 1
    (by decide) (by decide)

/-- C5 fails on the code: reconstructing from the lines "good" then "bad"
with a parse oracle that fails on "bad" aborts the whole reconstruction
with the parse error, instead of skipping the offending line and yielding
the chunk of the remaining parseable record. -/
theorem load_injected_parse_error_aborts :
    load_injected_documents parseEx ["good", "bad"] = .error "parse failure" ∧
    load_injected_documents parseEx ["good", "bad"] ≠
      .ok [⟨"good", [], some "good"⟩] := ⟨by decide, by decide⟩

/-- C5 (amended): a blank line is skipped and reconstruction continues,
but a line that fails to parse aborts the whole reconstruction with that
parse error; when every non-blank line parses, reconstruction succeeds
with exactly one chunk per non-blank line. -/
theorem load_injected_parse_behavior :
    (∀ (parse : String → Except String InjectRecord) (pre : List String)
        (line : String) (post : List String) (e : String),
      (∀ x ∈ pre, isBlankLine x = true ∨ ∃ r, parse x = .ok r) →
      isBlankLine line = false → parse line = .error e →
      load_injected_documents parse (pre ++ line :: post) = .error e) ∧
    (∀ (parse : String → Except String InjectRecord) (lines : List String),
      (∀ x ∈ lines, isBlankLine x = false → ∃ r, parse x = .ok r) →
      ∃ docs, load_injected_documents parse lines = .ok docs ∧
        docs.length = (lines.filter (fun x => !isBlankLine x)).length) := by
  constructor
  · intro parse pre line post e hpre hline hparse
    induction pre with
    | nil =>
      simp only [List.nil_append, load_injected_documents, hline, hparse]
      rfl
    | cons x pre1 ih =>
      have hx := hpre x (List.mem_cons_self x pre1)
      have hpre1 : ∀ y ∈ pre1, isBlankLine y = true ∨ ∃ r, parse y = .ok r :=
        fun y hy => hpre y (List.mem_cons_of_mem x hy)
      by_cases hbx : isBlankLine x
      · simp only [List.cons_append, load_injected_documents, hbx, if_true]
        exact ih hpre1
      · rcases hx with hx | ⟨r, hr⟩
        · exact absurd hx hbx
        · simp only [List.cons_append, load_injected_documents, hbx, if_false,
            Bool.false_eq_true, hr, List.append_eq]
          rw [ih hpre1]
  · intro parse lines hall
    induction lines with
    | nil => exact ⟨[], rfl, rfl⟩
    | cons x rest ih =>
      have hrest : ∀ y ∈ rest, isBlankLine y = false → ∃ r, parse y = .ok r :=
        fun y hy => hall y (List.mem_cons_of_mem x hy)
      obtain ⟨docs, hdocs, hlen⟩ := ih hrest
      by_cases hbx : isBlankLine x
      · refine ⟨docs, ?_, ?_⟩
        · simp only [load_injected_documents, hbx, if_true, hdocs]
        · simpa [hbx] using hlen
      · obtain ⟨r, hr⟩ := hall x (List.mem_cons_self x rest) (by simpa using hbx)
        refine ⟨⟨r.text, r.metadata, some r.id⟩ :: docs, ?_, ?_⟩
        · simp only [load_injected_documents, hbx, if_false, Bool.false_eq_true,
            hr, hdocs]
        · simpa [hbx] using congrArg Nat.succ hlen

/-- Witness for the amended C5: a failing line after a parseable one
aborts with the error, and an all-parseable log reconstructs fully. -/
theorem load_injected_parse_behavior_witness :
    load_injected_documents parseEx (["good"] ++ "bad" :: ["x"]) =
      .error "parse failure" :=
  load_injected_parse_behavior.1 parseEx ["good"] "bad" ["x"] "parse failure"
    (by
      intro x hx
      rw [List.mem_singleton] at hx
      subst hx
      exact Or.inr ⟨⟨"good", "t0", "good", []⟩, by decide⟩)
    (by decide) (by decide)

/-- C6: the injection path appends the record to the durable log before
any delta-index mutation — every index-mutating event in its effect trace
is preceded by the log-append — and when the log write fails the request
fails with the storage error and the state, delta index and delta
registry entry included, is unchanged. -/
theorem inject_log_write_precedes_index
    (writeOk : Bool) (recId docId now project version textContent : String)
    (metadata : List (String × String)) (st : InjectState) :
    (writeOk = false →
      inject writeOk recId docId now project version textContent metadata st =
        (.error .writeFailure, st, [])) ∧
    (∀ i ev,
      (inject writeOk recId docId now project version textContent metadata st).2.2.get? i
        = some ev → isIndexMutation ev = true →
      ∃ j, j < i ∧
        (inject writeOk recId docId now project version textContent metadata st).2.2.get? j
          = some (.logAppend recId)) := by
  constructor
  · intro h
    subst h
    rfl
  · cases writeOk with
    | false =>
      intro i ev hi
      simp [inject, append_to_jsonl] at hi
    | true =>
      intro i ev hi hm
      have htr :
            (inject true recId docId now project version textContent metadata st).2.2 =
              [InjectEvent.logAppend recId,
               InjectEvent.indexInsert docId,
               InjectEvent.persistDelta (getSlugS project version)] ∨
            (inject true recId docId now project version textContent metadata st).2.2 =
              [InjectEvent.logAppend recId,
               InjectEvent.indexCreate docId,
               InjectEvent.persistDelta (getSlugS project version)] := by
          simp only [inject, append_to_jsonl, if_true]
          cases hl : (({ st with injectLog := st.injectLog ++
              [(project, String.mk (normalize_version version.toList),
                ⟨recId, now, textContent, metadata⟩)] } : InjectState)).delta_indexes.lookup
              (getSlugS project version) with
          | none => right; simp [hl]
          | some docs => left; simp [hl]
      rcases htr with htr | htr <;>
      · rw [htr] at hi ⊢
        match i with
        | 0 =>
          simp at hi
          rw [← hi] at hm
          simp [isIndexMutation] at hm
        | 1 => exact ⟨0, by omega, rfl⟩
        | 2 =>
          simp at hi
          rw [← hi] at hm
          simp [isIndexMutation] at hm
        | (n + 3) => simp at hi

/-- Witness for C6: a failed log write leaves the empty state unchanged
and reports the storage failure. -/
theorem inject_log_write_precedes_index_witness :
    inject false "id0" "id1" "now" "k8s" "1.2" "X" [] ⟨[], []⟩ =
      (.error .writeFailure, ⟨[], []⟩, []) :=
  (inject_log_write_precedes_index false "id0" "id1" "now" "k8s" "1.2" "X"
    [] ⟨[], []⟩).1 rfl

/-- C7 fails on the code at two concrete inputs: the version "-dot."
contains no marker sequence, yet reversing the marker substitution does
not recover it (the substitution creates a spurious earlier marker); and
at the empty version the slug is the bare project, not the
project-separator-version concatenation. -/
theorem get_slug_roundtrip_fails :
    (hasSub marker ['-', 'd', 'o', 't', '.'] = false ∧
      unnormalize (normalize_version ['-', 'd', 'o', 't', '.']) ≠
        ['-', 'd', 'o', 't', '.']) ∧
    (hasSub marker [] = false ∧
      get_slug ['p'] [] ≠ ['p'] ++ '-' :: normalize_version []) :=
  ⟨⟨by decide, by decide⟩, ⟨by decide, by decide⟩⟩

/-- C7 (amended): `resolve(p, "")` equals `p` for every project; and for
every nonempty version containing neither the marker `"-dot-"` nor the
sequence `"-dot."`, the slug is the project, the separator and the
marker-substituted version, and the version is recovered from the slug by
reversing the marker substitution. -/
theorem get_slug_roundtrip :
    (∀ p : List Char, get_slug p [] = p) ∧
    (∀ p v : List Char, v ≠ [] → badVersion v = false →
      get_slug p v = p ++ '-' :: normalize_version v ∧
      unnormalize (normalize_version v) = v) := by
  constructor
  · intro p
    simp [get_slug]
  · intro p v hne hbad
    exact ⟨by simp [get_slug, hne], unnormalize_normalize hbad⟩

/-- Witness for the amended C7 at project "p", version "1.2". -/
theorem get_slug_roundtrip_witness :
    get_slug ['p'] ['1', '.', '2'] =
      ['p'] ++ '-' :: normalize_version ['1', '.', '2'] ∧
    unnormalize (normalize_version ['1', '.', '2']) = ['1', '.', '2'] :=
  get_slug_roundtrip.2 ['p'] ['1', '.', '2'] (by decide) (by decide)

/-- C8: a well-formed answer request whose resolved slug has no base index
in the registry gets a not-found failure and mutates no state: thread
histories on disk and in the cache are unchanged. -/
theorem answer_not_found_preserves_state
    (baseSearch deltaSearch : String → List Candidate) (gen : String → String)
    (minHits : Nat) (cutoff thresh : ℚ) (p v ts msg : String)
    (st : AnswerState)
    (hp : p ≠ "") (hv : v ≠ "") (hts : ts ≠ "") (hmsg : msg ≠ "")
    (habsent : st.base_slugs.contains (getSlugS p v) = false) :
    answer baseSearch deltaSearch gen minHits cutoff thresh
      (some p) (some v) (some ts) (some msg) st = (.notFound p v, st) := by
  have habsent2 : getSlugS p v ∉ st.base_slugs := by simpa using habsent
  simp [answer, truthy, hp, hv, hts, hmsg, habsent2]

/-- Witness for C8: a request against an empty registry, with existing
thread history, is rejected as not found with the state intact. -/
theorem answer_not_found_preserves_state_witness :
    answer (fun _ => []) (fun _ => []) (fun _ => "gen") 1 0 0
      (some "p") (some "1.2") (some "th") (some "q")
      ⟨[], [], [("th", [⟨"user", "old"⟩])], []⟩ =
      (.notFound "p" "1.2", ⟨[], [], [("th", [⟨"user", "old"⟩])], []⟩) :=
  answer_not_found_preserves_state (fun _ => []) (fun _ => []) (fun _ => "gen")
    1 0 0 "p" "1.2" "th" "q" ⟨[], [], [("th", [⟨"user", "old"⟩])], []⟩
    (by decide) (by decide) (by decide) (by decide) (by decide)

/-- C9: one injection (record id "id0" drawn first, document id "id1"
drawn second, as the two `uuid.uuid4()` calls in app.py lines 102 and 443)
writes "id0" into the log record but makes the chunk searchable under
`doc_id = "id1"`, a different identifier: the record's id is not used as
the chunk identifier. -/
theorem inject_record_id_differs_from_doc_id :
    inject true "id0" "id1" "now" "k8s" "1.2" "X" [] ⟨[], []⟩ =
      (.ok (), ⟨[("k8s", "1-dot-2", ⟨"id0", "now", "X", []⟩)],
        [("k8s-1-dot-2", [⟨"X", [], some "id1"⟩])]⟩,
       [.logAppend "id0", .indexCreate "id1", .persistDelta "k8s-1-dot-2"]) ∧
    ("id0" : String) ≠ "id1" := ⟨by decide, by decide⟩

/-- C10 fails on the code for the dash-free project "p" at three versions:
the empty version (the slug has no dash to split on), a version containing
the marker, and the version "-dot." whose substitution is ambiguous. -/
theorem slug_inverse_fails :
    ('-' ∉ ['p']) ∧
    slug_to_project_version (get_slug ['p'] []) ≠ some (['p'], []) ∧
    slug_to_project_version (get_slug ['p'] ['1', '-', 'd', 'o', 't', '-', '2']) ≠
      some (['p'], ['1', '-', 'd', 'o', 't', '-', '2']) ∧
    slug_to_project_version (get_slug ['p'] ['-', 'd', 'o', 't', '.']) ≠
      some (['p'], ['-', 'd', 'o', 't', '.']) :=
  ⟨by decide, by decide, by decide, by decide⟩

/-- C10 (amended): for every project without a dash and every nonempty
version containing neither `"-dot-"` nor `"-dot."`, splitting the slug at
the first dash and reversing the marker substitution recovers exactly the
(project, version) pair, so delta reconstruction reads the correct
injection log; and for the dashed project "a-b" with version "1" the
inverse recovers the different pair ("a", "b-1"), so reconstruction reads
the wrong log directory. -/
theorem slug_inverse_roundtrip :
    (∀ p v : List Char, '-' ∉ p → v ≠ [] → badVersion v = false →
      slug_to_project_version (get_slug p v) = some (p, v)) ∧
    ('-' ∈ ['a', '-', 'b'] ∧
      slug_to_project_version (get_slug ['a', '-', 'b'] ['1']) =
        some (['a'], ['b', '-', '1']) ∧
      (['a'], ['b', '-', '1']) ≠ ((['a', '-', 'b'] : List Char), (['1'] : List Char))) := by
  constructor
  · intro p v hp hv hbad
    have h1 : get_slug p v = p ++ '-' :: normalize_version v := by
      simp [get_slug, hv]
    rw [h1]
    simp [slug_to_project_version, splitFirstDash_append _ hp,
      unnormalize_normalize hbad]
  · exact ⟨by decide, by decide, by decide⟩

/-- Witness for the amended C10 at project "p", version "1.2". -/
theorem slug_inverse_roundtrip_witness :
    slug_to_project_version (get_slug ['p'] ['1', '.', '2']) =
      some (['p'], ['1', '.', '2']) :=
  slug_inverse_roundtrip.1 ['p'] ['1', '.', '2']
    (by decide) (by decide) (by decide)

end SlackAssistant
